import Mathlib

/-!
Verification of the `leprechaun` candlestick charting core.

Shallow embedding of `src/leprechaun/charts.go` (package `leprechaun`).

Modelling conventions:
* Go `float64` prices are modelled as `ℚ`.  All price computations that the
  claims touch are comparisons, subtraction, `math.Floor`, and max/min
  selection, which are exact.  (`percentChange` divides by `Open`; Go would
  produce `±Inf`/`NaN` for `Open = 0` while `ℚ` yields `0`; no claim reads
  that field.)
* Go `int` values used as indices (`OHLC.ID`, loop arithmetic) are modelled
  as `Int`, so that negative index arithmetic is represented faithfully.
* Go runtime panics (index out of range, slice bounds out of range) and the
  `error` return value are both modelled with `Except GoErr`:
  `GoErr.lastCandle` is the `ErrLastCandle` sentinel that functions return
  as an `error`, while `GoErr.indexOutOfRange` / `GoErr.sliceBounds` model
  runtime panics that abort the computation.
* `time.Time` / `time.Duration` fields (`Time`, `Period`, `Start`, `Stop`,
  `Interval`) and the unused chart fields (`MovingAverage`, `MA30`, `MA90`,
  `Lines`) are omitted: no claim mentions them and no embedded code path
  reads them.
* Go methods take their receiver *by value*: the body operates on a copy of
  the caller's struct.  The embedded method bodies therefore return the
  final state of that local copy (or the relevant part of it); the caller's
  own value is never affected, which `callerChartAfter` makes explicit.
-/

/-- Go string type `ChartTrend` (`type ChartTrend string`). -/
abbrev ChartTrend := String

/-- Trend constant `Bullish`. -/
def Bullish : ChartTrend := "Bullish"

/-- Trend constant `Bearish`. -/
def Bearish : ChartTrend := "Bearish"

/-- Trend constant `Indifferent`. -/
def Indifferent : ChartTrend := "Indifferent"

/-- Errors / panics a chart operation can produce.  `lastCandle` models the
`ErrLastCandle` sentinel error; the other two model Go runtime panics. -/
inductive GoErr where
  | lastCandle
  | indexOutOfRange
  | sliceBounds
deriving DecidableEq, Repr

/-- Struct `OHLC` holds the Open-High-Low-Close data for a range of prices
(struct `OHLC` in charts.go; time fields omitted, see module comment). -/
structure OHLC where
  Open : ℚ := 0
  High : ℚ := 0
  Low : ℚ := 0
  Close : ℚ := 0
  Range : ℚ := 0
  percentChange : ℚ := 0
  Trend : ChartTrend := ""
  Prices : List ℚ := []
  TotalVolume : ℚ := 0
  UpperTail : ℚ := 0
  LowerTail : ℚ := 0
  ID : Int := 0
deriving DecidableEq, Repr

instance : Inhabited OHLC := ⟨{}⟩

/-- Function `Min64` returns the smallest value in a float64 list (0 for an empty list). -/
def Min64 (a : List ℚ) : ℚ :=
  match a with
  | [] => 0
  | x :: _ => a.foldl (fun m v => if v < m then v else m) x

/-- Function `Max64` returns the largest value in a float64 list (0 for an empty list). -/
def Max64 (a : List ℚ) : ℚ :=
  match a with
  | [] => 0
  | x :: _ => a.foldl (fun m v => if v > m then v else m) x

/-- Go indexing `l[i]` on a slice: panics (`indexOutOfRange`) unless `0 ≤ i < len l`. -/
def goIndex (l : List OHLC) (i : Int) : Except GoErr OHLC :=
  if h : 0 ≤ i ∧ i.toNat < l.length then .ok (l.get ⟨i.toNat, h.2⟩)
  else .error .indexOutOfRange

/-- Go slicing `l[low:high]`: panics (`sliceBounds`) unless `0 ≤ low ≤ high ≤ len l`. -/
def goSlice (l : List OHLC) (low high : Int) : Except GoErr (List OHLC) :=
  if 0 ≤ low ∧ low ≤ high ∧ high ≤ (l.length : Int) then
    .ok ((l.take high.toNat).drop low.toNat)
  else .error .sliceBounds

/-- Function `doOHLC` extracts OHLC info from a list of prices (start-time argument and
hour truncation omitted: no claim reads the time field).  The accesses
`prices[len(prices)-1]` / `prices[0]` panic on an empty list, modelled by
`Except`. -/
def doOHLC (prices : List ℚ) (volume : ℚ) : Except GoErr OHLC :=
  match prices with
  | [] => .error .indexOutOfRange
  | p :: ps =>
      let cl := (p :: ps).getLast (by simp)
      let op := p
      let range := cl - op
      let trend := if range < 1 then Bearish else Bullish
      let hi := Max64 (p :: ps)
      let lo := Min64 (p :: ps)
      let upperTail := if trend = Bullish then hi - cl else if trend = Bearish then hi - op else 0
      let lowerTail := if trend = Bullish then op - lo else if trend = Bearish then cl - lo else 0
      .ok { Prices := p :: ps, TotalVolume := volume, Close := cl, Open := op,
            High := hi, Low := lo, Range := range,
            percentChange := range * 100 / op, Trend := trend,
            UpperTail := upperTail, LowerTail := lowerTail }

/-- Predicate `OHLC.IsBullish`: the candle's stored trend equals `Bullish`. -/
def OHLC.IsBullish (candle : OHLC) : Bool := candle.Trend == Bullish

/-- Predicate `OHLC.IsBearish`: the candle's stored trend equals `Bearish`. -/
def OHLC.IsBearish (candle : OHLC) : Bool := candle.Trend == Bearish

/-- Predicate `OHLC.IsDoji`: `math.Floor(Open) == math.Floor(Close)`. -/
def OHLC.IsDoji (candle : OHLC) : Bool := ⌊candle.Open⌋ == ⌊candle.Close⌋

/-- Predicate `OHLC.Engulfs`: high/low range containment of `candleTwo` by `candle`. -/
def OHLC.Engulfs (candle candleTwo : OHLC) : Bool :=
  candle.High > candleTwo.High && candle.Low < candleTwo.Low

/-- Bullish candlestick pattern constants (charts.go `const` block). -/
inductive BullishCandlestickPattern where
  | BullishEngulfingPattern
  | BullishMorningStar
  | MorningDojiStar
  | BullishHarami
  | BullishHaramiCross
  | BullishRisingThree
  | BullishRisingTwo
  | BullishKeyReversal
  | BullishGenericPattern
deriving DecidableEq, Repr

/-- Bearish candlestick pattern constants (charts.go `const` block). -/
inductive BearishCandlestickPattern where
  | BearishEngulfingPattern
  | BearishEveningStar
  | EveningDojiStar
  | BearishHarami
  | BearishHaramiCross
  | BearishFallingThree
  | BearishFallingTwo
  | BearishKeyReversal
  | BearishGenericPattern
deriving DecidableEq, Repr

/-- Record `BullishChartPattern`: a detected bullish pattern plus the preceding trend. -/
structure BullishChartPattern where
  Pattern : BullishCandlestickPattern
  PreceedingTrend : ChartTrend
deriving DecidableEq, Repr

/-- Record `BearishChartPattern`: a detected bearish pattern plus the preceding trend. -/
structure BearishChartPattern where
  Pattern : BearishCandlestickPattern
  PreceedingTrend : ChartTrend
deriving DecidableEq, Repr

/-- Struct `CandleChart` (unused analytics fields omitted, see module comment). -/
structure CandleChart where
  Candles : List OHLC := []
  Length : Int := 0
  MaxPatternCandles : Int := 0
  BullishPatterns : List BullishChartPattern := []
  BearishPatterns : List BearishChartPattern := []
deriving DecidableEq, Repr

/-- Constructor `NewCandleChart` builds a chart from a candle batch, overwriting each
candle's `ID` with its 0-based position (the Go `for i, candle := range` loop). -/
def NewCandleChart (candles : List OHLC) : CandleChart :=
  { Candles := candles.enum.map (fun p => { p.2 with ID := (p.1 : Int) }),
    MaxPatternCandles := 5,
    BearishPatterns := [],
    BullishPatterns := [] }

/-- Method `CandleChart.AllBearish`: no candle in the slice is bullish. -/
def CandleChart.AllBearish (_cht : CandleChart) (candles : List OHLC) : Bool :=
  candles.all (fun candle => !candle.IsBullish)

/-- Method `CandleChart.AllBullish`: no candle in the slice is bearish. -/
def CandleChart.AllBullish (_cht : CandleChart) (candles : List OHLC) : Bool :=
  candles.all (fun candle => !candle.IsBearish)

/-- Method `CandleChart.nextCandle` as written in the source: returns `ErrLastCandle`
whenever `len(cht.Candles) >= current.ID+1` (note the direction of the
comparison), otherwise indexes `cht.Candles[current.ID+1]`. -/
def CandleChart.nextCandle (cht : CandleChart) (current : OHLC) : Except GoErr OHLC :=
  if (cht.Candles.length : Int) ≥ current.ID + 1 then .error .lastCandle
  else goIndex cht.Candles (current.ID + 1)

/-- Method `CandleChart.previousCandle`: `ErrLastCandle` when `current.ID == 0`,
otherwise `cht.Candles[current.ID-1]`. -/
def CandleChart.previousCandle (cht : CandleChart) (current : OHLC) : Except GoErr OHLC :=
  if current.ID = 0 then .error .lastCandle
  else goIndex cht.Candles (current.ID - 1)

/-- The `for i := 1; i <= num; i++ { candles = append(candles, cht.Candles[current.ID-i]) }`
loop of `previousCandles`: `n` iterations remain and `i` is the current loop
counter.  The first out-of-range access panics, discarding everything. -/
def prevLoop (l : List OHLC) (id : Int) : Nat → Int → Except GoErr (List OHLC)
  | 0, _ => .ok []
  | n + 1, i =>
      match goIndex l (id - i) with
      | .error e => .error e
      | .ok c =>
          match prevLoop l id n (i + 1) with
          | .error e => .error e
          | .ok rest => .ok (c :: rest)

/-- Method `CandleChart.previousCandles`: `ErrLastCandle` when `current.ID == 0`,
otherwise collects `cht.Candles[current.ID-i]` for `i = 1 .. num`. -/
def CandleChart.previousCandles (cht : CandleChart) (num : Nat) (current : OHLC) :
    Except GoErr (List OHLC) :=
  if current.ID = 0 then .error .lastCandle
  else prevLoop cht.Candles current.ID num 1

/-- Method `CandleChart.DetectTrend` scores the overall trend of a group of candles
(the claims' `scoreTrend`): bump `bearishScore` per bearish candle, else
`bullishScore` per bullish candle, then compare. -/
def CandleChart.DetectTrend (_cht : CandleChart) (candles : List OHLC) : ChartTrend :=
  let scores := candles.foldl
    (fun (p : Int × Int) candle =>
      if candle.IsBearish then (p.1, p.2 + 1)
      else if candle.IsBullish then (p.1 + 1, p.2)
      else p)
    (0, 0)
  if scores.1 > scores.2 then Bullish
  else if scores.2 > scores.1 then Bearish
  else if scores.2 = scores.1 then Indifferent
  else Indifferent

/-- Method `CandleChart.AddBearishPattern`: the effect of the method body on the
*local copy's* `BearishPatterns` list (value receiver).  The guard is
`err != ErrLastCandle`; a panic inside `previousCandles` propagates. -/
def CandleChart.AddBearishPattern (cht : CandleChart) (earliestCandle : OHLC)
    (pattern : BearishCandlestickPattern) : Except GoErr (List BearishChartPattern) :=
  match cht.previousCandles 3 earliestCandle with
  | .error .lastCandle => .ok cht.BearishPatterns
  | .error e => .error e
  | .ok previousThreeCandles =>
      .ok (cht.BearishPatterns ++
        [{ Pattern := pattern, PreceedingTrend := cht.DetectTrend previousThreeCandles }])

/-- Method `CandleChart.AddBullishPattern`: the effect of the method body on the
*local copy's* `BullishPatterns` list (value receiver). -/
def CandleChart.AddBullishPattern (cht : CandleChart) (earliestCandle : OHLC)
    (pattern : BullishCandlestickPattern) : Except GoErr (List BullishChartPattern) :=
  match cht.previousCandles 3 earliestCandle with
  | .error .lastCandle => .ok cht.BullishPatterns
  | .error e => .error e
  | .ok previousThreeCandles =>
      .ok (cht.BullishPatterns ++
        [{ Pattern := pattern, PreceedingTrend := cht.DetectTrend previousThreeCandles }])

/-- One pattern-recording event: the record that an `AddBearishPattern` /
`AddBullishPattern` call appends to (its local copy of) the corresponding
pattern list.  `DetectPatterns` is embedded as the sequence of these events so
that which pattern gets recorded, and into which list, is observable. -/
inductive Call where
  | bear (r : BearishChartPattern)
  | bull (r : BullishChartPattern)
deriving DecidableEq, Repr

/-- The Go guard `if x, err := f(...); err != ErrLastCandle { body }`:
`ErrLastCandle` skips the body, a panic propagates, success runs the body. -/
def ifAvail {α : Type} (r : Except GoErr α) (k : α → Except GoErr (List Call)) :
    Except GoErr (List Call) :=
  match r with
  | .error .lastCandle => .ok []
  | .error e => .error e
  | .ok a => k a

/-- Events produced by one `cht.AddBearishPattern(anchor, p)` call: the new
records it appends to its local copy of the bearish list (none when the
look-back is unavailable; a panic propagates). -/
def bearEvents (cht : CandleChart) (anchor : OHLC) (p : BearishCandlestickPattern) :
    Except GoErr (List Call) :=
  (cht.AddBearishPattern anchor p).map
    (fun l => (l.drop cht.BearishPatterns.length).map Call.bear)

/-- Events produced by one `cht.AddBullishPattern(anchor, p)` call. -/
def bullEvents (cht : CandleChart) (anchor : OHLC) (p : BullishCandlestickPattern) :
    Except GoErr (List Call) :=
  (cht.AddBullishPattern anchor p).map
    (fun l => (l.drop cht.BullishPatterns.length).map Call.bull)

/-- The `lastCandle.IsBearish()` branch of `DetectPatterns`. -/
def bearishSection (cht : CandleChart) (lastCandle : OHLC) : Except GoErr (List Call) := do
  let t1 ← ifAvail (cht.previousCandle lastCandle) (fun prevC => do
    let a ← if prevC.IsBullish then do
        let e1 ← if lastCandle.Engulfs prevC then
            bearEvents cht prevC .BearishEngulfingPattern else pure []
        let e2 ← if prevC.Engulfs lastCandle then
            bearEvents cht prevC .BearishHarami else pure []
        let e3 ← if lastCandle.Open > prevC.Close ∧ lastCandle.High > lastCandle.Open then
            if lastCandle.Close < prevC.Low then
              bearEvents cht prevC .BearishKeyReversal else pure []
          else pure []
        pure (e1 ++ e2 ++ e3)
      else pure []
    let b ← ifAvail (cht.previousCandle prevC) (fun thirdC =>
      if thirdC.IsBullish then
        if prevC.IsDoji then
          if prevC.Low > thirdC.Close ∧ lastCandle.Open < prevC.Close then
            if lastCandle.Close > thirdC.Open then
              bearEvents cht thirdC .EveningDojiStar else pure (f := Except GoErr) []
          else pure []
        else
          if prevC.Range ≤ lastCandle.Range / 2 ∧ prevC.Open > thirdC.Open then
            if lastCandle.Open > prevC.Close ∧ lastCandle.Close > thirdC.Open then
              bearEvents cht thirdC .BearishEveningStar else pure []
          else pure []
      else pure [])
    pure (a ++ b))
  -- Bearish falling three (a.k.a bearish 3-method formation)
  let t2 ← ifAvail (cht.previousCandles 3 lastCandle) (fun prev3 =>
    if cht.AllBullish prev3 then do
      let oldest ← goIndex prev3 ((prev3.length : Int) - 1)
      ifAvail (cht.previousCandle oldest) (fun fifthC =>
        if fifthC.IsBearish then
          let highestPrices := prev3.map (fun candle => candle.High)
          if Max64 highestPrices < fifthC.High then
            bearEvents cht fifthC .BearishFallingThree else pure []
        else pure [])
    else pure [])
  -- Bearish falling two
  let t3 ← ifAvail (cht.previousCandles 2 lastCandle) (fun prev2 =>
    if cht.AllBullish prev2 then do
      let second ← goIndex prev2 1
      ifAvail (cht.previousCandle second) (fun fourthC =>
        if fourthC.IsBearish then
          let highestPrices := prev2.map (fun candle => candle.High)
          if Max64 highestPrices < fourthC.High then
            bearEvents cht fourthC .BearishFallingTwo else pure []
        else pure [])
    else pure [])
  -- Generic bearish pattern
  let t4 ← ifAvail (cht.previousCandles 3 lastCandle) (fun prev3 =>
    if cht.AllBearish prev3 then
      bearEvents cht lastCandle .BearishGenericPattern else pure [])
  pure (t1 ++ t2 ++ t3 ++ t4)

/-- The `lastCandle.IsBullish()` branch of `DetectPatterns`, exactly as in the
source — including the morning-doji-star sub-rule recording a *bearish*
`EveningDojiStar`, and the rising-two sub-rule recording `BearishFallingTwo`. -/
def bullishSection (cht : CandleChart) (lastCandle : OHLC) : Except GoErr (List Call) := do
  let t1 ← ifAvail (cht.previousCandle lastCandle) (fun prevC => do
    let a ← if prevC.IsBearish then do
        let e1 ← if lastCandle.Engulfs prevC then
            bullEvents cht prevC .BullishEngulfingPattern else pure []
        let e2 ← if prevC.Engulfs lastCandle then
            bullEvents cht prevC .BullishHarami else pure []
        let e3 ← if lastCandle.Open < prevC.Close ∧ lastCandle.Low < lastCandle.Open then
            if lastCandle.Close > prevC.High then
              bullEvents cht prevC .BullishKeyReversal else pure []
          else pure []
        pure (e1 ++ e2 ++ e3)
      else pure []
    let b ← ifAvail (cht.previousCandle prevC) (fun thirdC =>
      if thirdC.IsBearish then
        if prevC.IsDoji then
          -- morning doji star check: note the source records a *bearish*
          -- `EveningDojiStar` here (charts.go line 632)
          if prevC.High < thirdC.Close ∧ lastCandle.Open > prevC.Close then
            if lastCandle.Close < thirdC.Open then
              bearEvents cht thirdC .EveningDojiStar else pure (f := Except GoErr) []
          else pure []
        else
          if prevC.Range ≤ lastCandle.Range / 2 ∧ prevC.Close < thirdC.Close then
            if lastCandle.Open > prevC.Close ∧ lastCandle.Close < thirdC.Open then
              bullEvents cht thirdC .BullishMorningStar else pure []
          else pure []
      else pure [])
    pure (a ++ b))
  -- Bullish rising three (a.k.a bullish 3-method formation)
  let t2 ← ifAvail (cht.previousCandles 3 lastCandle) (fun prev3 =>
    if cht.AllBearish prev3 then do
      let oldest ← goIndex prev3 ((prev3.length : Int) - 1)
      ifAvail (cht.previousCandle oldest) (fun fifthC =>
        if fifthC.IsBullish then
          -- the source fills `lowestPrices` from `candle.High` here
          let lowestPrices := prev3.map (fun candle => candle.High)
          if Min64 lowestPrices > fifthC.Low then
            bullEvents cht fifthC .BullishRisingThree else pure []
        else pure [])
    else pure [])
  -- Bullish rising two: note the source records `BearishFallingTwo` via
  -- `AddBearishPattern` here (charts.go line 680)
  let t3 ← ifAvail (cht.previousCandles 2 lastCandle) (fun prev2 =>
    if cht.AllBearish prev2 then do
      let second ← goIndex prev2 1
      ifAvail (cht.previousCandle second) (fun fourthC =>
        if fourthC.IsBullish then
          let lowestPrices := prev2.map (fun candle => candle.Low)
          if Max64 lowestPrices > fourthC.Low then
            bearEvents cht fourthC .BearishFallingTwo else pure []
        else pure [])
    else pure [])
  -- Generic bullish pattern
  let t4 ← ifAvail (cht.previousCandles 3 lastCandle) (fun prev3 =>
    if cht.AllBullish prev3 then
      bullEvents cht lastCandle .BullishGenericPattern else pure [])
  pure (t1 ++ t2 ++ t3 ++ t4)

/-- The `lastCandle.IsDoji()` section of `DetectPatterns`. -/
def dojiSection (cht : CandleChart) (lastCandle : OHLC) : Except GoErr (List Call) := do
  let e1 ← ifAvail (cht.previousCandle lastCandle) (fun prevC =>
    if prevC.IsBearish ∧ lastCandle.High < prevC.High ∧ lastCandle.Low > prevC.Low then
      bullEvents cht prevC .BullishHaramiCross else pure [])
  let e2 ← ifAvail (cht.previousCandle lastCandle) (fun prevC =>
    if prevC.IsBullish ∧ lastCandle.High < prevC.High ∧ lastCandle.Low > prevC.Low then
      bearEvents cht prevC .BearishHaramiCross else pure [])
  pure (e1 ++ e2)

/-- Method `CandleChart.DetectPatterns`, instrumented: the sequence of
pattern-recording events its body performs (each `AddXPattern` call appends to
a method-local copy of the receiver, see `callerChartAfter`).  The trailing
window `cht.Candles[len-MaxPatternCandles : len]` panics (`sliceBounds`) when
the chart holds fewer candles than `MaxPatternCandles`. -/
def detectPatternsTrace (cht : CandleChart) : Except GoErr (List Call) := do
  let patternCandles ← goSlice cht.Candles
    ((cht.Candles.length : Int) - cht.MaxPatternCandles) (cht.Candles.length : Int)
  let lastCandle ← goIndex patternCandles ((patternCandles.length : Int) - 1)
  let tMain ←
    if lastCandle.IsBearish then bearishSection cht lastCandle
    else if lastCandle.IsBullish then bullishSection cht lastCandle
    else pure []
  let tDoji ← if lastCandle.IsDoji then dojiSection cht lastCandle else pure []
  pure (tMain ++ tDoji)

/-- Go value-receiver call semantics: `cht.M(...)` runs the method body on a
*copy* of `cht`; whatever the body does to the copy (and whatever it returns)
never reaches the caller's variable, which still holds `c` afterwards (a panic
aborts the program, so a fortiori it also never modifies `c`). -/
def callerChartAfter {α : Type} (body : CandleChart → Except GoErr α) (c : CandleChart) :
    CandleChart :=
  let _ := body c
  c

/-- A call a caller can make on a chart: `DetectPatterns()`,
`AddBullishPattern(a, p)` or `AddBearishPattern(a, p)`. -/
inductive MCall where
  | detect
  | addBull (anchor : OHLC) (p : BullishCandlestickPattern)
  | addBear (anchor : OHLC) (p : BearishCandlestickPattern)

/-- The caller's chart value after one value-receiver method call. -/
def runCall (c : CandleChart) : MCall → CandleChart
  | .detect => callerChartAfter detectPatternsTrace c
  | .addBull a p => callerChartAfter (fun ch => ch.AddBullishPattern a p) c
  | .addBear a p => callerChartAfter (fun ch => ch.AddBearishPattern a p) c

/-- The caller's chart value after a sequence of value-receiver method calls. -/
def runCalls (calls : List MCall) (c : CandleChart) : CandleChart :=
  calls.foldl runCall c

/-! ## Concrete fixtures used to evaluate the embedded code -/

/-- A six-candle batch whose final three candles satisfy the mirrored
(morning-) doji-star trigger conditions: candle 5 is Bullish, candle 4 is a
doji, candle 3 is Bearish, and `P.High < T.Close`, `L.Open > P.Close`,
`L.Close < T.Open` all hold.  Trends are the ones candle construction would
assign (`Range < 1` ⇒ Bearish). -/
def mdsCandles : List OHLC := [
  { Open := 100, Close := 100.5, High := 101, Low := 99, Range := 0.5, Trend := Bearish },
  { Open := 100, Close := 99.5, High := 101, Low := 99, Range := -0.5, Trend := Bearish },
  { Open := 100, Close := 99, High := 101, Low := 98, Range := -1, Trend := Bearish },
  { Open := 110, Close := 105, High := 111, Low := 104, Range := -5, Trend := Bearish },
  { Open := 100.5, Close := 100.2, High := 101, Low := 100, Range := -0.3, Trend := Bearish },
  { Open := 102, Close := 104, High := 105, Low := 101.5, Range := 2, Trend := Bullish } ]

/-- The chart built from `mdsCandles`. -/
def mdsChart : CandleChart := NewCandleChart mdsCandles

/-- Candle 3 of `mdsChart` (the doji-star rule's anchor `T`). -/
def mdsT : OHLC := mdsChart.Candles.getD 3 default

/-- Candle 4 of `mdsChart` (the doji `P`). -/
def mdsP : OHLC := mdsChart.Candles.getD 4 default

/-- Candle 5 of `mdsChart` (the last candle `L`). -/
def mdsL : OHLC := mdsChart.Candles.getD 5 default

/-- A chart holding a single (bearish) candle. -/
def oneCandleChart : CandleChart := NewCandleChart [{ Trend := Bearish }]

/-! ## Claim theorems -/

/-- C3: `next(c)` never returns the candle at index `c.index+1`: for every
candle whose index lies inside the chart — including every non-last candle —
`nextCandle` returns the `ErrLastCandle` error, because its boundary check
`len(cht.Candles) >= current.ID+1` is inverted (it holds for *every* in-chart
candle).  This refutes the claimed navigation behaviour and the
`next(previous(c)) == c` / `previous(next(c)) == c` round trips; the spec's
own design notes flag the inverted check as a defect, so the code, not the
claim, is wrong. -/
theorem nextCandle_always_errors (cht : CandleChart) (c : OHLC)
    (h : c.ID < (cht.Candles.length : Int)) :
    cht.nextCandle c = .error GoErr.lastCandle := by
  unfold CandleChart.nextCandle
  rw [if_pos (by omega)]

/-- Witness for `nextCandle_always_errors`: in the six-candle chart
`mdsChart`, navigating forward from candle 0 — which has five successors —
still yields `ErrLastCandle`. -/
theorem nextCandle_always_errors_witness :
    mdsChart.nextCandle (mdsChart.Candles.getD 0 default) = .error GoErr.lastCandle :=
  nextCandle_always_errors mdsChart (mdsChart.Candles.getD 0 default) (by decide)

/-- C5: recording a match is *not* silently dropped whenever the 3-candle
look-back is unavailable: for an anchor at index 1 (or 2) the look-up
`previousCandles(3, anchor)` runs past the front of the candle list and
panics (index out of range) instead of returning `ErrLastCandle`, so the
`err != ErrLastCandle` guard never fires and the panic escapes
`AddBearishPattern`.  Only an anchor at index 0 is silently dropped. -/
theorem addPattern_panics_on_short_lookback :
    (mdsChart.Candles.getD 1 default).ID = 1 ∧
    mdsChart.AddBearishPattern (mdsChart.Candles.getD 1 default)
        BearishCandlestickPattern.BearishEngulfingPattern
      = .error GoErr.indexOutOfRange := by
  constructor
  · rfl
  · rfl

/-- C2: value-receiver semantics — after any sequence of
`DetectPatterns` / `AddBullishPattern` / `AddBearishPattern` calls, the chart
value the caller holds is unchanged: each method body runs on a copy of the
receiver, so its appends (and panics) never reach the caller's
`BullishPatterns` / `BearishPatterns` fields. -/
theorem valueReceiver_preserves_patterns (c : CandleChart) (calls : List MCall) :
    (runCalls calls c).BullishPatterns = c.BullishPatterns ∧
    (runCalls calls c).BearishPatterns = c.BearishPatterns := by
  have h : runCalls calls c = c := by
    induction calls generalizing c with
    | nil => rfl
    | cons m rest ih =>
        have hstep : runCall c m = c := by cases m <;> rfl
        calc runCalls (m :: rest) c = runCalls rest (runCall c m) := rfl
        _ = runCalls rest c := by rw [hstep]
        _ = c := ih c
  rw [h]
  exact ⟨rfl, rfl⟩

/-- C10: `NewCandleChart` assigns each candle's `ID` equal to its 0-based
position in the chart, for every input batch and every position — in
particular indices are contiguous and unique within the chart. -/
theorem NewCandleChart_assigns_indices (candles : List OHLC) :
    (NewCandleChart candles).Candles.length = candles.length ∧
    ∀ (i : Nat) (h : i < (NewCandleChart candles).Candles.length),
      ((NewCandleChart candles).Candles.get ⟨i, h⟩).ID = i := by
  constructor
  · simp [NewCandleChart]
  · intro i h
    simp only [NewCandleChart, List.get_eq_getElem, List.getElem_map] at h ⊢
    simp [List.getElem_enum]

/-- Witness for `NewCandleChart_assigns_indices`: position 3 of the chart
built from the six-candle batch `mdsCandles` carries `ID = 3`. -/
theorem NewCandleChart_assigns_indices_witness :
    ((NewCandleChart mdsCandles).Candles.get ⟨3, by decide⟩).ID = 3 :=
  (NewCandleChart_assigns_indices mdsCandles).2 3 (by decide)

/-- A slice `l[low:high]` with a negative low bound panics. -/
theorem goSlice_neg_low (l : List OHLC) (low high : Int) (h : low < 0) :
    goSlice l low high = .error .sliceBounds := by
  unfold goSlice
  rw [if_neg (by omega)]

/-- C1: on every chart holding fewer candles than `MaxPatternCandles`,
`DetectPatterns` fails — the trailing-window slice
`cht.Candles[len-MaxPatternCandles : len]` has a negative low bound, which is
the failure the spec calls `InsufficientWindowError` — and the caller's
bullish and bearish pattern lists are unchanged (hence still empty),
since the value-receiver call never touches the caller's chart. -/
theorem detectPatterns_insufficient_window (c : CandleChart)
    (h : (c.Candles.length : Int) < c.MaxPatternCandles) :
    detectPatternsTrace c = .error GoErr.sliceBounds ∧
    (callerChartAfter detectPatternsTrace c).BullishPatterns = c.BullishPatterns ∧
    (callerChartAfter detectPatternsTrace c).BearishPatterns = c.BearishPatterns := by
  refine ⟨?_, rfl, rfl⟩
  unfold detectPatternsTrace
  rw [goSlice_neg_low _ _ _ (by omega)]
  rfl

/-- Witness for `detectPatterns_insufficient_window`: the empty chart (0
candles, window 5). -/
theorem detectPatterns_insufficient_window_witness :
    detectPatternsTrace (NewCandleChart []) = .error GoErr.sliceBounds ∧
    (callerChartAfter detectPatternsTrace (NewCandleChart [])).BullishPatterns
      = (NewCandleChart []).BullishPatterns ∧
    (callerChartAfter detectPatternsTrace (NewCandleChart [])).BearishPatterns
      = (NewCandleChart []).BearishPatterns :=
  detectPatterns_insufficient_window (NewCandleChart []) (by decide)

/-- C6: in `mdsChart` the last window candle `L` is Bullish, its
predecessor `P` is a doji, the candle `T` before `P` is Bearish, and the
mirrored doji-star conditions (`P.High < T.Close`, `L.Open > P.Close`,
`L.Close < T.Open`) all hold — yet the only record `DetectPatterns` produces
is a *bearish* `EveningDojiStar` (appended via `AddBearishPattern`), not a
`MorningDojiStar` on the bullish list.  The spec's design notes flag this
bullish-branch rule as a copy-paste defect, so the code, not the claim, is
wrong. -/
theorem morning_doji_star_miswired :
    (mdsL.IsBullish ∧ mdsP.IsDoji ∧ mdsT.IsBearish ∧
     mdsP.High < mdsT.Close ∧ mdsL.Open > mdsP.Close ∧ mdsL.Close < mdsT.Open) ∧
    detectPatternsTrace mdsChart =
      .ok [Call.bear { Pattern := BearishCandlestickPattern.EveningDojiStar,
                       PreceedingTrend := Bearish }] := by
  constructor
  · with_unfolding_all decide
  · with_unfolding_all rfl

/-- A candle whose stored trend is `Bearish` is not `IsBullish`. -/
theorem not_bullish_of_bearish {c : OHLC} (h : c.IsBearish = true) :
    c.IsBullish = false := by
  simp only [OHLC.IsBearish, beq_iff_eq] at h
  simp [OHLC.IsBullish, h, Bearish, Bullish]

/-- The score-accumulating fold of `DetectTrend` computes the two counts. -/
theorem detectTrend_foldl (candles : List OHLC) (b r : Int) :
    candles.foldl (fun (p : Int × Int) candle =>
      if candle.IsBearish then (p.1, p.2 + 1)
      else if candle.IsBullish then (p.1 + 1, p.2)
      else p) (b, r)
    = (b + (candles.countP (fun c => c.IsBullish) : Int),
       r + (candles.countP (fun c => c.IsBearish) : Int)) := by
  induction candles generalizing b r with
  | nil => simp
  | cons c cs ih =>
      by_cases hb : c.IsBearish
      · have hnb := not_bullish_of_bearish hb
        simp only [List.foldl_cons, List.countP_cons, hb, hnb, if_true, if_false, ih,
          decide_eq_true_eq]
        simp only [Prod.mk.injEq]
        constructor <;> push_cast <;> omega
      · by_cases hl : c.IsBullish
        · simp only [List.foldl_cons, List.countP_cons, hb, hl, if_true, if_false, ih,
            decide_eq_true_eq, Bool.false_eq_true]
          simp only [Prod.mk.injEq]
          constructor <;> push_cast <;> omega
        · simp only [List.foldl_cons, List.countP_cons, hb, hl, if_false, ih,
            decide_eq_true_eq, Bool.false_eq_true]
          simp only [Prod.mk.injEq]
          constructor <;> push_cast <;> omega

/-- C9: `DetectTrend` (the claims' `scoreTrend`) returns `Bullish` when the
bullish count exceeds the bearish count, `Bearish` when the bearish count
exceeds the bullish count, and `Indifferent` otherwise; in particular it is
`Indifferent` on the empty list and on every list with equal counts. -/
theorem scoreTrend_spec (cht : CandleChart) (candles : List OHLC) :
    (cht.DetectTrend candles =
      if candles.countP (fun c => c.IsBullish) > candles.countP (fun c => c.IsBearish)
      then Bullish
      else if candles.countP (fun c => c.IsBearish) > candles.countP (fun c => c.IsBullish)
      then Bearish
      else Indifferent) ∧
    cht.DetectTrend [] = Indifferent ∧
    ∀ cs : List OHLC,
      cs.countP (fun c => c.IsBullish) = cs.countP (fun c => c.IsBearish) →
      cht.DetectTrend cs = Indifferent := by
  have key : ∀ cs : List OHLC, cht.DetectTrend cs =
      if cs.countP (fun c => c.IsBullish) > cs.countP (fun c => c.IsBearish) then Bullish
      else if cs.countP (fun c => c.IsBearish) > cs.countP (fun c => c.IsBullish) then Bearish
      else Indifferent := by
    intro cs
    unfold CandleChart.DetectTrend
    rw [detectTrend_foldl]
    by_cases h1 : cs.countP (fun c => c.IsBullish) > cs.countP (fun c => c.IsBearish)
    · rw [if_pos (by push_cast; omega), if_pos h1]
    · rw [if_neg (by push_cast; omega), if_neg h1]
      by_cases h2 : cs.countP (fun c => c.IsBearish) > cs.countP (fun c => c.IsBullish)
      · rw [if_pos (by push_cast; omega), if_pos h2]
      · rw [if_neg (by push_cast; omega), if_neg h2, if_pos (by push_cast; omega)]
  refine ⟨key candles, by rw [key []]; simp, ?_⟩
  intro cs h
  rw [key cs, if_neg (by omega), if_neg (by omega)]

/-- Witness for `scoreTrend_spec`, evaluated on the first three candles of
`mdsCandles` (all bearish, so counts are 0 vs 3 and the result is `Bearish`);
the equal-counts conjunct is discharged on a one-bullish-one-bearish list. -/
theorem scoreTrend_spec_witness :
    mdsChart.DetectTrend (mdsCandles.take 3) =
      (if (mdsCandles.take 3).countP (fun c => c.IsBullish)
            > (mdsCandles.take 3).countP (fun c => c.IsBearish) then Bullish
       else if (mdsCandles.take 3).countP (fun c => c.IsBearish)
            > (mdsCandles.take 3).countP (fun c => c.IsBullish) then Bearish
       else Indifferent) ∧
    mdsChart.DetectTrend [{ Trend := Bullish }, { Trend := Bearish }] = Indifferent :=
  ⟨(scoreTrend_spec mdsChart (mdsCandles.take 3)).1,
   (scoreTrend_spec mdsChart []).2.2 [{ Trend := Bullish }, { Trend := Bearish }] (by decide)⟩

/-- C8: every candle `doOHLC` constructs has `Range = Close − Open`, is
classified `Bearish` exactly when that range is `< 1.0` and `Bullish`
otherwise, and is never `Indifferent`. -/
theorem construction_trend_threshold (prices : List ℚ) (vol : ℚ) (c : OHLC)
    (h : doOHLC prices vol = .ok c) :
    c.Range = c.Close - c.Open ∧
    (c.Trend = Bearish ↔ c.Range < 1) ∧
    (c.Trend = Bullish ↔ ¬ c.Range < 1) ∧
    c.Trend ≠ Indifferent := by
  rcases prices with _ | ⟨p, ps⟩
  · simp [doOHLC] at h
  · simp only [doOHLC, Except.ok.injEq] at h
    subst h
    by_cases hr : (p :: ps).getLast (by simp) - p < 1
    · simp only [if_pos hr]
      refine ⟨trivial, ?_, ?_, ?_⟩ <;> simp [hr, Bearish, Bullish, Indifferent]
    · simp only [if_neg hr]
      refine ⟨trivial, ?_, ?_, ?_⟩ <;> simp [hr, Bearish, Bullish, Indifferent]

/-- The candle `doOHLC` constructs from prices `[3, 7, 5]` with volume 1. -/
def sampleCandle : OHLC :=
  { Open := 3, High := 7, Low := 3, Close := 5, Range := 2, percentChange := 200 / 3,
    Trend := Bullish, Prices := [3, 7, 5], TotalVolume := 1,
    UpperTail := 2, LowerTail := 0, ID := 0 }

/-- Witness for `construction_trend_threshold` at prices `[3, 7, 5]`: the
constructed candle has range `2`, so it is Bullish and not Bearish. -/
theorem construction_trend_threshold_witness :
    sampleCandle.Range = sampleCandle.Close - sampleCandle.Open ∧
    (sampleCandle.Trend = Bearish ↔ sampleCandle.Range < 1) ∧
    (sampleCandle.Trend = Bullish ↔ ¬ sampleCandle.Range < 1) ∧
    sampleCandle.Trend ≠ Indifferent :=
  construction_trend_threshold [3, 7, 5] 1 sampleCandle (by with_unfolding_all rfl)

/-- The running maximum of the `Max64` fold never decreases below its seed. -/
theorem foldl_max_seed_le (l : List ℚ) (m : ℚ) :
    m ≤ l.foldl (fun a v => if v > a then v else a) m := by
  induction l generalizing m with
  | nil => exact le_refl m
  | cons v l ih =>
      refine le_trans ?_ (ih (if v > m then v else m))
      by_cases hv : v > m
      · rw [if_pos hv]; exact le_of_lt hv
      · rw [if_neg hv]

/-- The result of the `Max64` fold is the seed or an element of the list. -/
theorem foldl_max_mem (l : List ℚ) (m : ℚ) :
    l.foldl (fun a v => if v > a then v else a) m = m ∨
    l.foldl (fun a v => if v > a then v else a) m ∈ l := by
  induction l generalizing m with
  | nil => exact Or.inl rfl
  | cons v l ih =>
      rcases ih (if v > m then v else m) with h | h
      · rw [List.foldl_cons, h]
        by_cases hv : v > m
        · exact Or.inr (by rw [if_pos hv]; exact List.mem_cons_self v l)
        · exact Or.inl (by rw [if_neg hv])
      · exact Or.inr (List.mem_cons_of_mem v h)

/-- Every list element is bounded by the `Max64` fold. -/
theorem foldl_max_ub (l : List ℚ) (m : ℚ) :
    ∀ p ∈ l, p ≤ l.foldl (fun a v => if v > a then v else a) m := by
  induction l generalizing m with
  | nil => intro p hp; cases hp
  | cons v l ih =>
      intro p hp
      rcases List.mem_cons.mp hp with rfl | hp
      · refine le_trans ?_ (foldl_max_seed_le l (if p > m then p else m))
        by_cases hv : p > m
        · rw [if_pos hv]
        · rw [if_neg hv]; exact le_of_not_lt hv
      · exact ih (if v > m then v else m) p hp

/-- The running minimum of the `Min64` fold never exceeds its seed. -/
theorem foldl_min_le_seed (l : List ℚ) (m : ℚ) :
    l.foldl (fun a v => if v < a then v else a) m ≤ m := by
  induction l generalizing m with
  | nil => exact le_refl m
  | cons v l ih =>
      refine le_trans (ih (if v < m then v else m)) ?_
      by_cases hv : v < m
      · rw [if_pos hv]; exact le_of_lt hv
      · rw [if_neg hv]

/-- The result of the `Min64` fold is the seed or an element of the list. -/
theorem foldl_min_mem (l : List ℚ) (m : ℚ) :
    l.foldl (fun a v => if v < a then v else a) m = m ∨
    l.foldl (fun a v => if v < a then v else a) m ∈ l := by
  induction l generalizing m with
  | nil => exact Or.inl rfl
  | cons v l ih =>
      rcases ih (if v < m then v else m) with h | h
      · rw [List.foldl_cons, h]
        by_cases hv : v < m
        · exact Or.inr (by rw [if_pos hv]; exact List.mem_cons_self v l)
        · exact Or.inl (by rw [if_neg hv])
      · exact Or.inr (List.mem_cons_of_mem v h)

/-- The `Min64` fold is a lower bound of every list element. -/
theorem foldl_min_lb (l : List ℚ) (m : ℚ) :
    ∀ p ∈ l, l.foldl (fun a v => if v < a then v else a) m ≤ p := by
  induction l generalizing m with
  | nil => intro p hp; cases hp
  | cons v l ih =>
      intro p hp
      rcases List.mem_cons.mp hp with rfl | hp
      · refine le_trans (foldl_min_le_seed l (if p < m then p else m)) ?_
        by_cases hv : p < m
        · rw [if_pos hv]
        · rw [if_neg hv]; exact le_of_not_lt hv
      · exact ih (if v < m then v else m) p hp

/-- For a non-empty list, `Max64` is one of its elements. -/
theorem Max64_mem (p : ℚ) (ps : List ℚ) : Max64 (p :: ps) ∈ p :: ps := by
  show (p :: ps).foldl (fun a v => if v > a then v else a) p ∈ p :: ps
  rcases foldl_max_mem (p :: ps) p with h | h
  · rw [h]; exact List.mem_cons_self p ps
  · exact h

/-- Every element of a list is bounded by its `Max64`. -/
theorem le_Max64 (p : ℚ) (ps : List ℚ) : ∀ q ∈ p :: ps, q ≤ Max64 (p :: ps) := by
  unfold Max64
  exact foldl_max_ub (p :: ps) p

/-- For a non-empty list, `Min64` is one of its elements. -/
theorem Min64_mem (p : ℚ) (ps : List ℚ) : Min64 (p :: ps) ∈ p :: ps := by
  show (p :: ps).foldl (fun a v => if v < a then v else a) p ∈ p :: ps
  rcases foldl_min_mem (p :: ps) p with h | h
  · rw [h]; exact List.mem_cons_self p ps
  · exact h

/-- Every element of a list is at least its `Min64`. -/
theorem Min64_le (p : ℚ) (ps : List ℚ) : ∀ q ∈ p :: ps, Min64 (p :: ps) ≤ q := by
  unfold Min64
  exact foldl_min_lb (p :: ps) p

/-- C7: candle construction fails on an empty price list — the access
`prices[len(prices)-1]` is the index-out-of-range failure the spec calls
`EmptyInputError`, and no candle is produced — and on every non-empty list it
returns a candle with `open` = first price, `close` = last price, `high` =
maximum price and `low` = minimum price. -/
theorem doOHLC_spec (prices : List ℚ) (vol : ℚ) :
    (prices = [] → doOHLC prices vol = .error GoErr.indexOutOfRange) ∧
    (prices ≠ [] → ∃ c, doOHLC prices vol = .ok c ∧
      prices.head? = some c.Open ∧ prices.getLast? = some c.Close ∧
      c.High ∈ prices ∧ (∀ p ∈ prices, p ≤ c.High) ∧
      c.Low ∈ prices ∧ (∀ p ∈ prices, c.Low ≤ p)) := by
  rcases prices with _ | ⟨p, ps⟩
  · exact ⟨fun _ => rfl, fun h => absurd rfl h⟩
  · constructor
    · intro h
      cases h
    · intro _
      exact ⟨_, rfl, rfl, List.getLast?_eq_getLast (p :: ps) (by simp), Max64_mem p ps,
        le_Max64 p ps, Min64_mem p ps, Min64_le p ps⟩

/-- Witness for `doOHLC_spec` at prices `[3, 7, 5]`. -/
theorem doOHLC_spec_witness :
    ∃ c, doOHLC [3, 7, 5] 1 = .ok c ∧
      ([3, 7, 5] : List ℚ).head? = some c.Open ∧
      ([3, 7, 5] : List ℚ).getLast? = some c.Close ∧
      c.High ∈ ([3, 7, 5] : List ℚ) ∧ (∀ p ∈ ([3, 7, 5] : List ℚ), p ≤ c.High) ∧
      c.Low ∈ ([3, 7, 5] : List ℚ) ∧ (∀ p ∈ ([3, 7, 5] : List ℚ), c.Low ≤ p) :=
  (doOHLC_spec [3, 7, 5] 1).2 (by simp)

/-- A valid Go index access returns the element at that position. -/
theorem goIndex_ok (l : List OHLC) (i : Int) (h0 : 0 ≤ i) (h1 : i.toNat < l.length) :
    goIndex l i = .ok (l.getD i.toNat default) := by
  unfold goIndex
  rw [dif_pos ⟨h0, h1⟩, List.get_eq_getElem, List.getD_eq_getElem l default h1]

/-- At a valid position, `List.get?` is `some` of the `getD` value. -/
theorem get?_eq_some_getD (l : List OHLC) (k : Nat) (hk : k < l.length) :
    l.get? k = some (l.getD k default) := by
  rw [List.get?_eq_getElem?, List.getElem?_eq_getElem hk, List.getD_eq_getElem l default hk]

/-- When every access of the `previousCandles` loop is in bounds, the loop
returns one candle per iteration: element `j` of the result is the chart
candle at position `id - (i + j)`. -/
theorem prevLoop_ok (l : List OHLC) (id : Int) :
    ∀ (n : Nat) (i : Int),
      (∀ j : Nat, j < n → 0 ≤ id - (i + j) ∧ (id - (i + j)).toNat < l.length) →
      ∃ res, prevLoop l id n i = .ok res ∧ res.length = n ∧
        ∀ j : Nat, j < n → res.get? j = l.get? (id - (i + j)).toNat := by
  intro n
  induction n with
  | zero => exact fun i _ => ⟨[], rfl, rfl, fun j hj => absurd hj (by omega)⟩
  | succ n ih =>
      intro i h
      obtain ⟨h0l, h0r⟩ := h 0 (by omega)
      push_cast at h0l h0r
      have hgi : goIndex l (id - i) = .ok (l.getD (id - i).toNat default) :=
        goIndex_ok l (id - i) (by omega) (by omega)
      obtain ⟨rest, hrest, hlen, hget⟩ := ih (i + 1) (fun j hj => by
        obtain ⟨a, b⟩ := h (j + 1) (by omega)
        push_cast at a b ⊢
        exact ⟨by omega, by omega⟩)
      refine ⟨l.getD (id - i).toNat default :: rest, ?_, by simp [hlen], ?_⟩
      · unfold prevLoop
        simp only [hgi, hrest]
      · intro j hj
        cases j with
        | zero =>
            have harg : id - (i + ((0 : Nat) : Int)) = id - i := by push_cast; ring
            rw [harg]
            rw [get?_eq_some_getD l (id - i).toNat (by omega)]
            rfl
        | succ j =>
            have hj' : j < n := by omega
            have := hget j hj'
            have harg : id - (i + 1 + (j : Int)) = id - (i + ((j + 1 : Nat) : Int)) := by
              push_cast
              ring
            calc (l.getD (id - i).toNat default :: rest).get? (j + 1)
                = rest.get? j := rfl
              _ = l.get? (id - (i + 1 + (j : Int))).toNat := this
              _ = l.get? (id - (i + ((j + 1 : Nat) : Int))).toNat := by rw [harg]

/-- When the requested look-back runs past the front of the candle list, the
`previousCandles` loop panics with an index-out-of-range error. -/
theorem prevLoop_err (l : List OHLC) (id : Int) :
    ∀ (n : Nat) (i : Int), 1 ≤ i → i ≤ id + 1 → id + 2 ≤ i + n →
      (id - 1).toNat < l.length → 0 ≤ id →
      prevLoop l id n i = .error GoErr.indexOutOfRange := by
  intro n
  induction n with
  | zero =>
      intro i h1 h2 h3 _ _
      exfalso
      omega
  | succ n ih =>
      intro i h1 h2 h3 hlen hid
      by_cases hcase : i = id + 1
      · have hbad : goIndex l (id - i) = .error .indexOutOfRange := by
          unfold goIndex
          rw [dif_neg]
          omega
        unfold prevLoop
        simp only [hbad]
      · have hacc : goIndex l (id - i) = .ok (l.getD (id - i).toNat default) :=
          goIndex_ok l (id - i) (by omega) (by omega)
        unfold prevLoop
        simp only [hacc, ih (i + 1) (by omega) (by omega) (by omega) hlen hid]

/-- The `previousCandles` loop never returns a truncated list: a successful
run yields exactly one candle per requested iteration. -/
theorem prevLoop_length (l : List OHLC) (id : Int) :
    ∀ (n : Nat) (i : Int) (res : List OHLC),
      prevLoop l id n i = .ok res → res.length = n := by
  intro n
  induction n with
  | zero =>
      intro i res h
      injection h with h
      rw [← h]
      rfl
  | succ n ih =>
      intro i res h
      unfold prevLoop at h
      split at h
      · cases h
      · split at h
        · cases h
        · rename_i rest hrest
          injection h with h
          rw [← h]
          simp [ih _ _ hrest]

/-- C4 (amended): for a chart candle at a positive index with at least
`num` predecessors, `previousCandles` returns exactly `num` candles ordered
nearest-to-farthest (element `j` is the candle at position `index − (1+j)`);
it fails with `ErrLastCandle` whenever the candle's index is 0 (even for
`num = 0`, which refutes the unamended claim), it panics (index out of range)
when `1 ≤ index < num`, and a successful call never returns a truncated
list. -/
theorem previousCandles_spec (cht : CandleChart) (num : Nat) (c : OHLC)
    (hlt : c.ID < (cht.Candles.length : Int)) :
    (1 ≤ c.ID → (num : Int) ≤ c.ID →
      ∃ res, cht.previousCandles num c = .ok res ∧ res.length = num ∧
        ∀ j : Nat, j < num → res.get? j = cht.Candles.get? (c.ID - (1 + j)).toNat) ∧
    (c.ID = 0 → cht.previousCandles num c = .error GoErr.lastCandle) ∧
    (1 ≤ c.ID → c.ID < (num : Int) →
      cht.previousCandles num c = .error GoErr.indexOutOfRange) ∧
    (∀ res, cht.previousCandles num c = .ok res → res.length = num) := by
  refine ⟨?_, ?_, ?_, ?_⟩
  · intro h1 hge
    unfold CandleChart.previousCandles
    rw [if_neg (by omega)]
    exact prevLoop_ok cht.Candles c.ID num 1 (fun j hj => ⟨by omega, by omega⟩)
  · intro h0
    unfold CandleChart.previousCandles
    rw [if_pos h0]
  · intro h1 hlt'
    unfold CandleChart.previousCandles
    rw [if_neg (by omega)]
    exact prevLoop_err cht.Candles c.ID num 1 (by omega) (by omega) (by omega)
      (by omega) (by omega)
  · intro res h
    unfold CandleChart.previousCandles at h
    by_cases h0 : c.ID = 0
    · rw [if_pos h0] at h
      cases h
    · rw [if_neg h0] at h
      exact prevLoop_length cht.Candles c.ID num 1 res h

/-- Witness for `previousCandles_spec`: looking back 2 candles from candle 3
of the six-candle chart `mdsChart` succeeds with exactly the candles at
positions 2 and 1, nearest first. -/
theorem previousCandles_spec_witness :
    ∃ res, mdsChart.previousCandles 2 (mdsChart.Candles.getD 3 default) = .ok res ∧
      res.length = 2 ∧
      ∀ j : Nat, j < 2 → res.get? j =
        mdsChart.Candles.get? ((mdsChart.Candles.getD 3 default).ID - (1 + j)).toNat :=
  (previousCandles_spec mdsChart 2 (mdsChart.Candles.getD 3 default)
    (by with_unfolding_all decide)).1
    (by with_unfolding_all decide) (by with_unfolding_all decide)

/-- C4, counterexample to the unamended claim: the claim states that
`previousN(n, c)` returns exactly `n` candles whenever `c.index ≥ n`, failing
only when `n > c.index`; but for the first candle of a chart (`index = 0`)
and `n = 0` — where `c.index ≥ n` holds — the call fails with `ErrLastCandle`
instead of returning the empty look-back. -/
theorem previousCandles_zero_counterexample :
    (oneCandleChart.Candles.getD 0 default).ID = 0 ∧
    oneCandleChart.previousCandles 0 (oneCandleChart.Candles.getD 0 default)
      = .error GoErr.lastCandle ∧
    oneCandleChart.previousCandles 0 (oneCandleChart.Candles.getD 0 default)
      ≠ .ok [] := by
  refine ⟨rfl, rfl, ?_⟩
  intro h
  exact Except.noConfusion h
